import Mathlib

/-!
Verification of `dm-data-schema-randomizer` (src/main.py).

The program is a linear pipeline over an in-memory table:
rename columns, reorder columns, coerce column dtypes, bracketed by
input validation and CSV read/write.  We shallowly embed the data
model (tables as lists of named, typed columns of values) and each
transformation, modelling the pseudorandom draws as explicit oracle
parameters (a shuffled list for `random.shuffle`, an index oracle for
`random.choice`).
-/

/-- Conversion target tags, mirroring the Python list
`possible_types = [np.int64, np.float64, 'string', 'category']`
at main.py line 76. -/
inductive TypeTag where
  | int64
  | float64
  | string
  | category
deriving DecidableEq, Repr

/-- Pandas dtypes a column can carry when `change_data_types` inspects it.
`int64`, `float64` and `object` come from `pd.read_csv` type inference;
`category` can be produced by `astype('category')`; `otherDt` stands for
any further dtype (bool, datetime64, ...), none of which compares equal
to an entry of the Python `possible_types` list. -/
inductive Dtype where
  | int64
  | float64
  | object
  | category
  | otherDt
deriving DecidableEq, Repr

/-- The Python list `numeric_types = [np.int64, np.float64]` (main.py line 79). -/
def numeric_types : List TypeTag := [TypeTag.int64, TypeTag.float64]

/-- Embeds the Python test `original_type in numeric_types` (main.py line 81):
a pandas dtype compares equal to `np.int64` / `np.float64` exactly when it is
that numeric dtype. -/
def dtypeIsNumeric : Dtype → Bool
  | .int64 => true
  | .float64 => true
  | _ => false

/-- Embeds the Python test `original_type == 'object'` (main.py line 85):
only the object dtype compares equal to the string `'object'`. -/
def dtypeIsObject : Dtype → Bool
  | .object => true
  | _ => false

/-- Embeds Python `==` between a pandas dtype and an entry of the
`possible_types` list, as used by `possible_types.remove(original_type)`
(main.py line 90).  `np.dtype('int64') == np.int64` and
`np.dtype('float64') == np.float64` hold, and a pandas `CategoricalDtype`
compares equal to the tag `'category'`; the object dtype does NOT compare
equal to the tag `'string'` (numpy resolves `'string'` to a bytes dtype,
not to object), so for object columns the removal finds nothing. -/
def dtypeEqTag : Dtype → TypeTag → Bool
  | .int64, .int64 => true
  | .float64, .float64 => true
  | .category, .category => true
  | _, _ => false

/-- The candidate-target computation of `change_data_types` for one column
(main.py lines 76-92): start from
`[np.int64, np.float64, 'string', 'category']`; if the dtype is numeric,
drop both numeric entries; if the dtype is object, drop `'category'`;
finally `list.remove` the first entry comparing equal to the dtype,
ignoring the `ValueError` when none does (`List.eraseP` removes the first
match and returns the list unchanged when there is none). -/
def possible_types (d : Dtype) : List TypeTag :=
  let l0 := [TypeTag.int64, TypeTag.float64, TypeTag.string, TypeTag.category]
  let l1 := if dtypeIsNumeric d then l0.filter (fun t => !(numeric_types.contains t)) else l0
  let l2 := if dtypeIsObject d then l1.filter (fun t => t != TypeTag.category) else l1
  l2.eraseP (fun t => dtypeEqTag d t)

/-- Embeds `random.choice(lst)` on a non-empty list: the generator produces
some index `k`, and the element at `k` modulo the length is returned.
Quantifying over all `k` covers every possible draw of the seeded
generator. -/
def randomChoice (k : Nat) (l : List TypeTag) : TypeTag :=
  l.getD (k % l.length) TypeTag.int64

/-- Cell values.  Integers and floats are modelled exactly (a float value as
the rational it denotes); `strV` is a text cell; `naV` is a missing value
(NaN), which `pd.to_numeric` leaves unparsed. -/
inductive Value where
  | intV (n : Int)
  | floatV (q : Rat)
  | strV (s : String)
  | naV
deriving DecidableEq, Repr

/-- Value of a non-empty all-digit character list, read in base 10;
`none` as soon as a non-digit appears or the list is empty. -/
def digitsVal : List Char → Option Nat
  | [] => none
  | cs => cs.foldlM
      (fun acc c => if c.isDigit then some (10 * acc + (c.toNat - 48)) else none) 0

/-- Unsigned decimal numeral, optionally with one decimal point; at least
one digit must be present on one side of the point. -/
def parseUnsigned (cs : List Char) : Option Rat :=
  let ip := cs.takeWhile (fun c => c != '.')
  match cs.dropWhile (fun c => c != '.') with
  | [] => (digitsVal ip).map (fun n => (n : Rat))
  | _ :: fp =>
    if fp.contains '.' then none
    else if ip.isEmpty && fp.isEmpty then none
    else
      match (if ip.isEmpty then some 0 else digitsVal ip),
            (if fp.isEmpty then some 0 else digitsVal fp) with
      | some i, some f => some ((i : Rat) + (f : Rat) / (10 : Rat) ^ fp.length)
      | _, _ => none

/-- Numeric parsing of a text cell, modelling what
`pd.to_numeric(..., errors='coerce')` accepts on a string: surrounding
spaces are ignored, an optional sign precedes a decimal numeral; anything
else (e.g. `"abc"`, the empty string) fails to parse. -/
def parseNumStr (s : String) : Option Rat :=
  let cs := ((s.data.dropWhile (fun c => c == ' ')).reverse.dropWhile
      (fun c => c == ' ')).reverse
  match cs with
  | '-' :: rest => (parseUnsigned rest).map (fun q => -q)
  | '+' :: rest => parseUnsigned rest
  | _ => parseUnsigned cs

/-- Numeric reading of a cell under `pd.to_numeric(..., errors='coerce')`:
numbers pass through, strings are parsed, missing values stay unparsed
(they become NaN, i.e. `none` here). -/
def parseNum : Value → Option Rat
  | .intV n => some (n : Rat)
  | .floatV q => some q
  | .strV s => parseNumStr s
  | .naV => none

/-- Truncation toward zero, as `astype(np.int64)` applies to a float. -/
def ratTrunc (q : Rat) : Int :=
  if 0 ≤ q then Rat.floor q else -Rat.floor (-q)

/-- Wrap-around to the signed 64-bit range, as numpy stores an out-of-range
integer into an `int64` cell. -/
def toInt64 (n : Int) : Int :=
  (n + 2 ^ 63) % 2 ^ 64 - 2 ^ 63

/-- The fillna step of main.py line 102: an unparsed (NaN) cell becomes `0`,
a parsed one is truncated to an integer. -/
def fillThenInt : Option Rat → Int
  | none => 0
  | some q => ratTrunc q

/-- Per-cell conversion for target `np.int64` (main.py line 102):
`pd.to_numeric(df[col], errors='coerce').fillna(0).astype(np.int64)`. -/
def convToInt (v : Value) : Value :=
  Value.intV (toInt64 (fillThenInt (parseNum v)))

/-- Per-cell conversion for target `np.float64` (main.py line 104):
`pd.to_numeric(df[col], errors='coerce').fillna(0.0).astype(np.float64)`. -/
def convToFloat (v : Value) : Value :=
  Value.floatV ((parseNum v).getD 0)

/-- Python `str(value)`, the default text representation used by
`df[col].astype(str)` (main.py line 106). -/
def strOfValue : Value → String
  | .intV n => toString n
  | .floatV q => toString q
  | .strV s => s
  | .naV => "nan"

/-- Per-cell conversion for target `'string'`: total, every cell becomes its
default string form. -/
def convToStr (v : Value) : Value :=
  Value.strV (strOfValue v)

/-- One named, typed column of the table. -/
structure Column where
  name : String
  dtype : Dtype
  data : List Value
deriving DecidableEq, Repr

/-- The conversion block of `change_data_types` (main.py lines 100-108) for
one column and a chosen target.  The stored dtype after `astype(str)` is
object (pandas strings live in object columns); `astype('category')` keeps
the cell values and only retags the column. -/
def convertColumn (t : TypeTag) (c : Column) : Column :=
  match t with
  | .int64 => { c with dtype := .int64, data := c.data.map convToInt }
  | .float64 => { c with dtype := .float64, data := c.data.map convToFloat }
  | .string => { c with dtype := .object, data := c.data.map convToStr }
  | .category => { c with dtype := .category }

/-- The in-memory table: an ordered list of columns. -/
structure Table where
  cols : List Column
deriving DecidableEq, Repr

/-- Current column names, in order. -/
def Table.names (t : Table) : List String := t.cols.map Column.name

/-- Text cells that `pd.to_numeric` parses to a non-finite float: optionally
signed `inf` or `infinity`, case-insensitive, surrounding spaces ignored
(the same stripping as in `parseNumStr`). -/
def strIsInf (s : String) : Bool :=
  let cs := (((s.data.dropWhile (fun c => c == ' ')).reverse.dropWhile
      (fun c => c == ' ')).reverse).map Char.toLower
  let body := match cs with
    | '-' :: r => r
    | '+' :: r => r
    | r => r
  body == "inf".data || body == "infinity".data

/-- Cells whose `to_numeric` reading is ±infinity; only text cells can be
(the model's numeric cells denote finite values). -/
def parsesToInf : Value → Bool
  | .strV s => strIsInf s
  | _ => false

/-- The raise condition of the conversion block (main.py lines 100-108):
`astype(np.int64)` refuses non-finite values, and after `fillna(0)` has
removed the NaNs the cast raises exactly when `to_numeric` parsed some
cell to ±infinity.  The float64, string and category targets never
raise. -/
def convFails (tt : TypeTag) (c : Column) : Bool :=
  tt == TypeTag.int64 && c.data.any parsesToInf

/-- One iteration of the `change_data_types` loop body for a column with a
non-empty candidate list and draw index `k`: the chosen conversion is
attempted; if it raises, the `except` at main.py line 112 logs an ERROR
and leaves the column unchanged. -/
def coerceStep (k : Nat) (c : Column) : Column :=
  let pt := possible_types c.dtype
  if pt.isEmpty then c
  else if convFails (randomChoice k pt) c then c
  else convertColumn (randomChoice k pt) c

/-- Whether the loop body's `except` branch (main.py lines 112-113) fires
for this column: candidates were found but the chosen conversion raised. -/
def coerceStepFails (k : Nat) (c : Column) : Bool :=
  let pt := possible_types c.dtype
  !pt.isEmpty && convFails (randomChoice k pt) c

/-- The `change_data_types` loop (main.py lines 72-115): each column
independently gets a candidate list from its dtype; if the list is empty
the column is skipped with a warning, otherwise `random.choice` picks a
target (modelled by the index oracle `pick`, one draw per column position)
and the column is converted, a failing conversion being caught and leaving
the column unchanged. -/
def change_data_types (pick : Nat → Nat) (t : Table) : Table :=
  ⟨t.cols.enum.map (fun p => coerceStep (pick p.1) p.2)⟩

/-- Whether `change_data_types` logged at least one ERROR-level message on
this table: true exactly when some column's conversion raised and was
caught at main.py lines 112-113. -/
def conversionErrors (pick : Nat → Nat) (t : Table) : Bool :=
  t.cols.enum.any (fun p => coerceStepFails (pick p.1) p.2)

/-- Little-endian decimal digits of a natural number (the last digit first);
the building block of the rendering of `i` inside the Python f-string
`f"column_{i}"`. -/
def natDigitsLE (n : Nat) : List Nat :=
  if _ : n < 10 then [n] else (n % 10) :: natDigitsLE (n / 10)
decreasing_by exact Nat.div_lt_self (by omega) (by omega)

/-- The character for one decimal digit. -/
def digitChar10 (d : Nat) : Char := Char.ofNat (48 + d)

/-- Python `str(i)` for a natural number: its decimal digits, most
significant first. -/
def natToDecimalString (n : Nat) : String :=
  String.mk ((natDigitsLE n).reverse.map digitChar10)

/-- Reading digits back; inverse of `natDigitsLE`, used to prove the
rendering injective. -/
def ofDigitsLE : List Nat → Nat
  | [] => 0
  | d :: ds => d + 10 * ofDigitsLE ds

/-- The fresh label list of `randomize_column_names` (main.py line 34):
`[f"column_{i}" for i in range(len(df.columns))]`. -/
def canonicalNames (n : Nat) : List String :=
  (List.range n).map (fun i => "column_" ++ natToDecimalString i)

/-- Lookup in the Python dict built by `dict(zip(old, new))`: among the
pairs whose key equals `k`, the last one wins (later dict insertions
overwrite earlier ones); `none` when the key is absent. -/
def lookupLast (pairs : List (String × String)) (k : String) : Option String :=
  ((pairs.filter (fun p => p.1 == k)).getLast?).map Prod.snd

/-- `df.rename(columns=mapping)`: every column whose name is a key of the
mapping takes the mapped name, other columns keep theirs. -/
def renameWith (pairs : List (String × String)) (t : Table) : Table :=
  ⟨t.cols.map (fun c => { c with name := (lookupLast pairs c.name).getD c.name })⟩

/-- The `randomize_column_names` stage (main.py lines 21-37): build the
canonical labels, shuffle them (the shuffled list `newNames` is the
oracle for `random.shuffle`, constrained in the theorems to be a
permutation of the canonical labels), and rename via
`dict(zip(df.columns, new_names))`. -/
def randomize_column_names (newNames : List String) (t : Table) : Table :=
  renameWith (t.names.zip newNames) t

/-- Column selection `df[columns]` by a list of names (main.py line 54):
for each requested name, the first column carrying that name. -/
def selectColumns (order : List String) (t : Table) : Table :=
  ⟨order.filterMap (fun nm => t.cols.find? (fun c => c.name == nm))⟩

/-- The `reorder_columns` stage (main.py lines 39-55): copy the name list,
`random.shuffle` it (the shuffled list `order` is the oracle, constrained
in the theorems to be a permutation of the names), then select
`df = df[columns]`. -/
def reorder_columns (order : List String) (t : Table) : Table :=
  selectColumns order t

/-- A stand-in column, only used as the (never reached) default of an
always-successful lookup. -/
def dummyColumn : Column := ⟨"", Dtype.otherDt, []⟩

/-- The three randomization stages in the order `main` applies them
(main.py lines 156-158): rename, reorder, coerce. -/
def pipelineTransform (newNames order : List String) (pick : Nat → Nat)
    (t : Table) : Table :=
  change_data_types pick (reorder_columns order (randomize_column_names newNames t))

/-- The reseeding guard `if seed: random.seed(seed)` that each of the three
stages runs before drawing (main.py lines 32-33, 50-51, 69-70).  `none`
models an absent `--seed`; Python truthiness makes the integer `0` falsy,
so the guard holds exactly for a supplied non-zero seed. -/
def seedGuard : Option Int → Bool
  | none => false
  | some s => s != 0

/-- The outside world as `main` sees it: whether the input path resolves to
a file, the path text itself, whether the CSV parse succeeds and to what
table, and whether the output destination accepts the write. -/
structure Env where
  fileExists : Bool
  inputPath : String
  parseOk : Bool
  loaded : Table
  writeOk : Bool

/-- Python `input_file.lower().endswith('.csv')` (main.py line 136):
case-insensitive extension test. -/
def isCsvPath (s : String) : Bool :=
  ".csv".data.isSuffixOf (s.data.map Char.toLower)

/-- The `validate_input` function (main.py lines 117-137): existence probe
first (raising `FileNotFoundError`), then the extension check (raising
`ValueError`). -/
def validate_input (e : Env) : Except String Unit :=
  if !e.fileExists then .error ("Input file not found: " ++ e.inputPath)
  else if !(isCsvPath e.inputPath) then .error "Input file must be a CSV file."
  else .ok ()

/-- Observable outcome of one run: the process exit status, the output
table when one was written (`none` otherwise), and whether a message at
ERROR level was logged. -/
structure RunResult where
  exitCode : Nat
  output : Option Table
  errorLogged : Bool
deriving DecidableEq, Repr

/-- The `main` function's try/except body (main.py lines 147-169): validate,
read, transform, write; every raised error is caught at top level, logged
at ERROR level, and the function returns normally, which ends the process
with status 0.  On a run that reaches the write step, per-column
conversion failures inside `change_data_types` have already been caught
and logged at ERROR level (main.py line 113) without stopping the run, so
`errorLogged` can hold even though an output table is produced. -/
def main_run (e : Env) (newNames order : List String) (pick : Nat → Nat) :
    RunResult :=
  match validate_input e with
  | .error _ => ⟨0, none, true⟩
  | .ok _ =>
    if !e.parseOk then ⟨0, none, true⟩
    else if e.writeOk then
      ⟨0, some (pipelineTransform newNames order pick e.loaded),
        conversionErrors pick (reorder_columns order
          (randomize_column_names newNames e.loaded))⟩
    else ⟨0, none, true⟩

/-- A fixed two-column table used to instantiate the universally quantified
theorems at a concrete input. -/
def exampleTable : Table :=
  ⟨[⟨"a", Dtype.int64, [Value.intV 1]⟩, ⟨"b", Dtype.object, [Value.strV "x"]⟩]⟩

/-- The constant index oracle: `random.choice` always lands on the first
candidate. -/
def zeroPick : Nat → Nat := fun _ => 0

/-- C1 counterexample: the claim says a numeric column's candidate set still
contains the other numeric type, but for an `int64` column the filter at
main.py line 82 removes BOTH numeric entries, so `float64` is not a
candidate. -/
theorem float64_not_candidate_for_int64 :
    ¬ (TypeTag.float64 ∈ possible_types Dtype.int64) := by decide

/-- C1 (amended): for a numeric column (int64 or float64) the candidate set
is exactly `[text, categorical]` — the other numeric type is excluded as
well, because the filter drops every member of `numeric_types`, not only
the current dtype. -/
theorem numeric_candidates_are_string_category :
    possible_types Dtype.int64 = [TypeTag.string, TypeTag.category] ∧
    possible_types Dtype.float64 = [TypeTag.string, TypeTag.category] := by decide

/-- C2: for a column of original dtype int64, whatever index the seeded
generator draws, the chosen conversion target is text ('string') or
categorical, provided the candidate list is non-empty (it is). -/
theorem int64_column_becomes_string_or_category (k : Nat)
    (h : possible_types Dtype.int64 ≠ []) :
    randomChoice k (possible_types Dtype.int64) = TypeTag.string ∨
    randomChoice k (possible_types Dtype.int64) = TypeTag.category := by
  have h2 : possible_types Dtype.int64 = [TypeTag.string, TypeTag.category] := by decide
  have hk : k % 2 = 0 ∨ k % 2 = 1 := by omega
  rcases hk with hk | hk <;>
    simp [randomChoice, h2, hk]

/-- C2 witness: instantiated at the concrete draw `k = 0`. -/
theorem int64_column_becomes_string_or_category_witness :
    possible_types Dtype.int64 ≠ [] ∧
    (randomChoice 0 (possible_types Dtype.int64) = TypeTag.string ∨
     randomChoice 0 (possible_types Dtype.int64) = TypeTag.category) :=
  ⟨by decide, int64_column_becomes_string_or_category 0 (by decide)⟩

/-- C3 counterexample: the claim says a text (object) column's candidate set
contains only the numeric types, yet `'string'` is a candidate: the
`possible_types.remove(original_type)` call at main.py line 90 does not
match the object dtype against the `'string'` tag, so the text target
survives. -/
theorem string_candidate_for_object :
    TypeTag.string ∈ possible_types Dtype.object := by decide

/-- C3 (amended): for a text (object) column the candidate set is exactly
`[int64, float64, 'string']`: categorical is excluded, but the text target
remains because the attempted removal of the current type finds no entry
equal to the object dtype. -/
theorem object_candidates_are_int64_float64_string :
    possible_types Dtype.object = [TypeTag.int64, TypeTag.float64, TypeTag.string] := by decide

/-- C10: whatever the column's dtype, the candidate list always keeps at
least two entries, so the `if not possible_types` warning branch
(main.py line 94) can never fire and no column is skipped. -/
theorem possible_types_never_empty (d : Dtype) :
    2 ≤ (possible_types d).length ∧ (possible_types d).isEmpty = false := by
  cases d <;> exact ⟨by decide, by decide⟩

/-- C4: the conversion fallback policy.  Target int64: the column is mapped
cell-wise, every cell that fails to parse becomes `0`, and every produced
integer lies in the signed 64-bit range, the column dtype becoming int64.
Target float64: cell-wise, unparsable cells become `0.0`, dtype float64.
Target text: cell-wise, total, each cell becomes its default string form. -/
theorem conversion_fallback_policy (c : Column) :
    ((convertColumn TypeTag.int64 c).dtype = Dtype.int64 ∧
     (convertColumn TypeTag.int64 c).data = c.data.map convToInt) ∧
    (∀ v, parseNum v = none →
      convToInt v = Value.intV 0 ∧ convToFloat v = Value.floatV 0) ∧
    (∀ v, ∃ n, convToInt v = Value.intV n ∧ -(2 ^ 63) ≤ n ∧ n < 2 ^ 63) ∧
    ((convertColumn TypeTag.float64 c).dtype = Dtype.float64 ∧
     (convertColumn TypeTag.float64 c).data = c.data.map convToFloat) ∧
    ((convertColumn TypeTag.string c).dtype = Dtype.object ∧
     (convertColumn TypeTag.string c).data =
       c.data.map (fun v => Value.strV (strOfValue v))) := by
  refine ⟨⟨rfl, rfl⟩, ?_, ?_, ⟨rfl, rfl⟩, ⟨rfl, rfl⟩⟩
  · intro v hv
    simp [convToInt, convToFloat, hv, fillThenInt, toInt64]
  · intro v
    refine ⟨toInt64 (fillThenInt (parseNum v)), rfl, ?_, ?_⟩
    · have h1 : 0 ≤ (fillThenInt (parseNum v) + 2 ^ 63) % 2 ^ 64 :=
        Int.emod_nonneg _ (by norm_num)
      simp only [toInt64]
      omega
    · have h2 : (fillThenInt (parseNum v) + 2 ^ 63) % 2 ^ 64 < 2 ^ 64 :=
        Int.emod_lt_of_pos _ (by norm_num)
      simp only [toInt64]
      omega

/-- C4 witness: a one-column table holding the text `"abc"`; it fails to
parse, so the int64 target yields `0` and the float64 target yields `0.0`. -/
theorem conversion_fallback_policy_witness :
    parseNum (Value.strV "abc") = none ∧
    convToInt (Value.strV "abc") = Value.intV 0 ∧
    convToFloat (Value.strV "abc") = Value.floatV 0 := by
  have h : parseNum (Value.strV "abc") = none := by decide
  have h2 := (conversion_fallback_policy
    ⟨"col", Dtype.object, [Value.strV "abc"]⟩).2.1 (Value.strV "abc") h
  exact ⟨h, h2⟩

theorem natDigitsLE_zero : natDigitsLE 0 = [0] := by simp [natDigitsLE]

theorem natDigitsLE_one : natDigitsLE 1 = [1] := by simp [natDigitsLE]

theorem natDigitsLE_lt (n : Nat) : ∀ d ∈ natDigitsLE n, d < 10 := by
  induction n using Nat.strong_induction_on with
  | _ n ih =>
    rw [natDigitsLE]
    split
    · rename_i h; intro d hd; simp at hd; omega
    · rename_i h
      intro d hd
      rcases List.mem_cons.mp hd with h1 | h1
      · omega
      · exact ih (n / 10) (Nat.div_lt_self (by omega) (by omega)) d h1

theorem ofDigitsLE_natDigitsLE (n : Nat) : ofDigitsLE (natDigitsLE n) = n := by
  induction n using Nat.strong_induction_on with
  | _ n ih =>
    rw [natDigitsLE]
    split
    · simp [ofDigitsLE]
    · rename_i h
      simp only [ofDigitsLE, ih (n / 10) (Nat.div_lt_self (by omega) (by omega))]
      omega

theorem digitChar10_round (d : Nat) (h : d < 10) : (digitChar10 d).toNat - 48 = d := by
  interval_cases d <;> decide

theorem map_digitChar10_inj (l1 : List Nat) : ∀ l2, (∀ d ∈ l1, d < 10) →
    (∀ d ∈ l2, d < 10) → l1.map digitChar10 = l2.map digitChar10 → l1 = l2 := by
  induction l1 with
  | nil =>
    intro l2 _ _ h
    cases l2 with
    | nil => rfl
    | cons b t2 => simp at h
  | cons a t1 ih =>
    intro l2 h1 h2 h
    cases l2 with
    | nil => simp at h
    | cons b t2 =>
      simp only [List.map_cons, List.cons.injEq] at h
      obtain ⟨hab, ht⟩ := h
      have hab' : a = b := by
        have := congrArg (fun c => c.toNat - 48) hab
        simp only at this
        rw [digitChar10_round a (h1 a (by simp)), digitChar10_round b (h2 b (by simp))] at this
        exact this
      have htt : t1 = t2 := ih t2 (fun d hd => h1 d (by simp [hd]))
        (fun d hd => h2 d (by simp [hd])) ht
      rw [hab', htt]

theorem natToDecimalString_inj (m n : Nat)
    (h : natToDecimalString m = natToDecimalString n) : m = n := by
  have hd : (natDigitsLE m).reverse.map digitChar10
      = (natDigitsLE n).reverse.map digitChar10 := by
    have := congrArg String.data h
    simpa [natToDecimalString] using this
  have hrev : (natDigitsLE m).reverse = (natDigitsLE n).reverse :=
    map_digitChar10_inj _ _ (fun d hd => natDigitsLE_lt m d (List.mem_reverse.mp hd))
      (fun d hd => natDigitsLE_lt n d (List.mem_reverse.mp hd)) hd
  have hdig : natDigitsLE m = natDigitsLE n := List.reverse_injective hrev
  have := congrArg ofDigitsLE hdig
  rwa [ofDigitsLE_natDigitsLE, ofDigitsLE_natDigitsLE] at this

theorem canonicalNames_nodup (n : Nat) : (canonicalNames n).Nodup := by
  refine List.Nodup.map ?_ (List.nodup_range n)
  intro a b hab
  apply natToDecimalString_inj
  have := congrArg String.data hab
  simp only [String.data_append] at this
  exact String.ext (List.append_cancel_left this)

theorem canonicalNames_length (n : Nat) : (canonicalNames n).length = n := by
  simp [canonicalNames]

theorem lookupLast_cons_ne (p : String × String) (pairs : List (String × String))
    (k : String) (h : p.1 ≠ k) : lookupLast (p :: pairs) k = lookupLast pairs k := by
  simp [lookupLast, List.filter_cons, h]

theorem lookupLast_zip (names : List String) : ∀ (newNames : List String) (i : Nat)
    (h : i < names.length) (h2 : i < newNames.length), names.Nodup →
    lookupLast (names.zip newNames) (names.get ⟨i, h⟩) =
      some (newNames.get ⟨i, h2⟩) := by
  induction names with
  | nil => intro _ i h; exact absurd h (by simp)
  | cons a ns ih =>
    intro newNames i h h2 hnd
    cases newNames with
    | nil => exact absurd h2 (by simp)
    | cons b ms =>
      have hnotmem : a ∉ ns := (List.nodup_cons.mp hnd).1
      cases i with
      | zero =>
        have htail : (ns.zip ms).filter (fun p => p.1 == a) = [] := by
          refine List.filter_eq_nil_iff.mpr ?_
          intro p hp
          obtain ⟨x, y⟩ := p
          have hx : x ∈ ns := (List.of_mem_zip hp).1
          simp only [beq_iff_eq]
          intro hxa
          exact hnotmem (hxa ▸ hx)
        simp [lookupLast, List.filter_cons, htail]
      | succ j =>
        have hj : j < ns.length := by simpa using h
        have hj2 : j < ms.length := by simpa using h2
        have hkey : ns.get ⟨j, hj⟩ ∈ ns := ns.get_mem j hj
        have hne : a ≠ ns.get ⟨j, hj⟩ := fun hcontr => hnotmem (hcontr ▸ hkey)
        have hrec := ih ms j hj hj2 (List.nodup_cons.mp hnd).2
        have hg1 : (a :: ns).get ⟨j + 1, h⟩ = ns.get ⟨j, hj⟩ := rfl
        have hg2 : (b :: ms).get ⟨j + 1, h2⟩ = ms.get ⟨j, hj2⟩ := rfl
        rw [hg1, hg2, List.zip_cons_cons, lookupLast_cons_ne _ _ _ hne]
        exact hrec

theorem randomize_names_positional (t : Table) (newNames : List String)
    (hnd : t.names.Nodup) (hlen : newNames.length = t.cols.length) :
    (randomize_column_names newNames t).names = newNames := by
  have hn : t.names.length = t.cols.length := by simp [Table.names]
  refine List.ext_get ?_ ?_
  · simp [randomize_column_names, renameWith, Table.names, hlen]
  · intro i h1 h2
    have hi : i < t.cols.length := by
      simpa [randomize_column_names, renameWith, Table.names] using h1
    have hlook := lookupLast_zip t.names newNames i (by omega) (by omega) hnd
    simp only [Table.names, List.get_eq_getElem, List.getElem_map] at hlook
    simp [randomize_column_names, renameWith, Table.names, List.get_eq_getElem,
      List.getElem_map, hlook]

/-- C5: the Renamer replaces the names with exactly the labels
`column_0 … column_{n-1}` (as a set), the assignment of labels to column
positions is a bijection (the name list is exactly the shuffled label
list, which has no duplicates), and the columns' positions, dtypes and
cell data are untouched.  `hnd` reflects that a loaded CSV table has
pairwise distinct column names (pandas deduplicates duplicate headers on
read); `hperm` says the oracle list is what `random.shuffle` produced
from the canonical labels. -/
theorem renamer_bijection (t : Table) (newNames : List String)
    (hnd : t.names.Nodup)
    (hperm : newNames.Perm (canonicalNames t.cols.length)) :
    (randomize_column_names newNames t).names = newNames ∧
    (randomize_column_names newNames t).names.Perm (canonicalNames t.cols.length) ∧
    (randomize_column_names newNames t).names.Nodup ∧
    (randomize_column_names newNames t).cols.map Column.data = t.cols.map Column.data ∧
    (randomize_column_names newNames t).cols.map Column.dtype = t.cols.map Column.dtype ∧
    (randomize_column_names newNames t).cols.length = t.cols.length := by
  have hlen : newNames.length = t.cols.length := by
    have := hperm.length_eq
    rwa [canonicalNames_length] at this
  have hpos := randomize_names_positional t newNames hnd hlen
  refine ⟨hpos, ?_, ?_, ?_, ?_, ?_⟩
  · rw [hpos]; exact hperm
  · rw [hpos]; exact hperm.symm.nodup (canonicalNames_nodup _)
  · simp [randomize_column_names, renameWith, List.map_map]
  · simp [randomize_column_names, renameWith, List.map_map]
  · simp [randomize_column_names, renameWith]

/-- C5 witness: a two-column table named `a`, `b`; with the shuffled labels
`["column_1", "column_0"]` the renamer yields exactly those names, keeping
data and dtypes. -/
theorem renamer_bijection_witness :
    (randomize_column_names ["column_1", "column_0"]
      ⟨[⟨"a", Dtype.int64, [Value.intV 1]⟩, ⟨"b", Dtype.object, [Value.strV "x"]⟩]⟩).names
      = ["column_1", "column_0"] := by
  have hcanon : canonicalNames 2 = ["column_0", "column_1"] := by
    simp only [canonicalNames, List.range_succ, List.range_zero, natToDecimalString,
      natDigitsLE_zero, natDigitsLE_one, List.nil_append, List.map_cons, List.map_nil,
      List.reverse_cons, List.reverse_nil, List.cons_append, digitChar10]
    decide
  exact (renamer_bijection
    ⟨[⟨"a", Dtype.int64, [Value.intV 1]⟩, ⟨"b", Dtype.object, [Value.strV "x"]⟩]⟩
    ["column_1", "column_0"] (by decide)
    (show List.Perm ["column_1", "column_0"] (canonicalNames 2) by
      rw [hcanon]; decide)).1

theorem find_name_get (cols : List Column) : ∀ (i : Nat) (h : i < cols.length),
    (cols.map Column.name).Nodup →
    cols.find? (fun c => c.name == (cols.get ⟨i, h⟩).name) = some (cols.get ⟨i, h⟩) := by
  induction cols with
  | nil => intro i h; exact absurd h (by simp)
  | cons c cs ih =>
    intro i h hnd
    have hpair : (∀ x ∈ cs, ¬x.name = c.name) ∧ (cs.map Column.name).Nodup := by
      simpa using hnd
    have hnotmem : c.name ∉ cs.map Column.name := by
      simp only [List.mem_map]
      rintro ⟨x, hx, hxe⟩
      exact hpair.1 x hx hxe
    cases i with
    | zero =>
      exact List.find?_cons_of_pos _ (by simp)
    | succ j =>
      have hj : j < cs.length := by simpa using h
      have hg : (c :: cs).get ⟨j + 1, h⟩ = cs.get ⟨j, hj⟩ := rfl
      rw [hg]
      have hkeymem : (cs.get ⟨j, hj⟩).name ∈ cs.map Column.name :=
        List.mem_map_of_mem _ (cs.get_mem j hj)
      have hne : ¬ c.name = (cs.get ⟨j, hj⟩).name :=
        fun hcontr => hnotmem (hcontr ▸ hkeymem)
      rw [List.find?_cons_of_neg _ (by simpa using hne)]
      exact ih j hj hpair.2

theorem filterMap_all_some (order : List String) (g : String → Option Column)
    (f : String → Column) (hall : ∀ nm ∈ order, g nm = some (f nm)) :
    order.filterMap g = order.map f := by
  induction order with
  | nil => rfl
  | cons a l ih =>
    rw [List.filterMap_cons, List.map_cons, hall a (by simp),
      ih (fun nm hm => hall nm (by simp [hm]))]

/-- C6: the Reorderer's output column list is a permutation of the input's:
exactly the same columns (hence the same per-column names, dtypes and cell
data), only the order differs.  `hnd` is the distinct-column-names
property of a loaded table (selection `df[columns]` is by name); `hperm`
says the oracle list is what `random.shuffle` produced from the names. -/
theorem reorder_permutation (t : Table) (order : List String)
    (hnd : t.names.Nodup) (hperm : order.Perm t.names) :
    (reorder_columns order t).cols.Perm t.cols ∧
    (reorder_columns order t).names.Perm t.names := by
  have hndm : (t.cols.map Column.name).Nodup := by simpa [Table.names] using hnd
  have hsome : ∀ nm ∈ t.names, t.cols.find? (fun c => c.name == nm) =
      some ((t.cols.find? (fun c => c.name == nm)).getD dummyColumn) := by
    intro nm hm
    obtain ⟨⟨i, hi⟩, rfl⟩ := List.get_of_mem hm
    have hi' : i < t.cols.length := by simpa [Table.names] using hi
    have hname : t.names.get ⟨i, hi⟩ = (t.cols.get ⟨i, hi'⟩).name := by
      simp [Table.names]
    rw [hname, find_name_get t.cols i hi' hndm]
    rfl
  have horder : ∀ nm ∈ order, t.cols.find? (fun c => c.name == nm) =
      some ((t.cols.find? (fun c => c.name == nm)).getD dummyColumn) :=
    fun nm hm => hsome nm (hperm.mem_iff.mp hm)
  have h1 : (reorder_columns order t).cols =
      order.map (fun nm => (t.cols.find? (fun c => c.name == nm)).getD dummyColumn) :=
    filterMap_all_some order _ _ horder
  have h2 : t.cols =
      t.names.map (fun nm => (t.cols.find? (fun c => c.name == nm)).getD dummyColumn) := by
    refine List.ext_get (by simp [Table.names]) ?_
    intro i hc hm
    have hi : i < t.names.length := by simpa [Table.names] using hc
    have hname : t.names[i] = t.cols[i].name := by
      simp [Table.names]
    have := find_name_get t.cols i hc hndm
    simp only [List.get_eq_getElem, List.getElem_map] at this ⊢
    rw [← hname] at this
    rw [this]
    rfl
  have hcols : (reorder_columns order t).cols.Perm t.cols := by
    rw [h1]
    conv_rhs => rw [h2]
    exact hperm.map _
  exact ⟨hcols, by simpa [Table.names] using hcols.map Column.name⟩

/-- C6 witness: reversing the two columns of a concrete table is a
permutation of its column list. -/
theorem reorder_permutation_witness :
    (reorder_columns ["b", "a"]
      ⟨[⟨"a", Dtype.int64, [Value.intV 1]⟩, ⟨"b", Dtype.object, [Value.strV "x"]⟩]⟩).cols.Perm
      [⟨"a", Dtype.int64, [Value.intV 1]⟩, ⟨"b", Dtype.object, [Value.strV "x"]⟩] :=
  (reorder_permutation
    ⟨[⟨"a", Dtype.int64, [Value.intV 1]⟩, ⟨"b", Dtype.object, [Value.strV "x"]⟩]⟩
    ["b", "a"] (by decide) (by decide)).1

theorem convertColumn_length (tt : TypeTag) (c : Column) :
    (convertColumn tt c).data.length = c.data.length := by
  cases tt <;> simp [convertColumn]

theorem rename_mem_data (newNames : List String) (t : Table) :
    ∀ c' ∈ (randomize_column_names newNames t).cols, ∃ c ∈ t.cols, c'.data = c.data := by
  intro c' hc'
  simp only [randomize_column_names, renameWith, List.mem_map] at hc'
  obtain ⟨c, hc, rfl⟩ := hc'
  exact ⟨c, hc, rfl⟩

theorem reorder_mem (order : List String) (t : Table) :
    ∀ c' ∈ (reorder_columns order t).cols, c' ∈ t.cols := by
  intro c' hc'
  simp only [reorder_columns, selectColumns, List.mem_filterMap] at hc'
  obtain ⟨nm, _, hfind⟩ := hc'
  exact List.mem_of_find?_eq_some hfind

theorem change_mem_len (pick : Nat → Nat) (t : Table) :
    ∀ c' ∈ (change_data_types pick t).cols, ∃ c ∈ t.cols, c'.data.length = c.data.length := by
  intro c' hc'
  simp only [change_data_types, List.mem_map] at hc'
  obtain ⟨p, hp, rfl⟩ := hc'
  have hmem : p.2 ∈ t.cols := by
    have := List.mem_map_of_mem Prod.snd hp
    rwa [List.enum_map_snd] at this
  refine ⟨p.2, hmem, ?_⟩
  by_cases h : (possible_types p.2.dtype).isEmpty
  · simp [coerceStep, h]
  · by_cases h2 : convFails (randomChoice (pick p.1) (possible_types p.2.dtype)) p.2
    · simp [coerceStep, h, h2]
    · simp [coerceStep, h, h2, convertColumn_length]

/-- C7: if every column of the input has `R` rows, then after each single
stage (rename, reorder, type coercion) and after the whole pipeline every
column still has exactly `R` rows: no stage adds or drops rows. -/
theorem row_count_invariance (t : Table) (R : Nat) (newNames order : List String)
    (pick : Nat → Nat) (hR : ∀ c ∈ t.cols, c.data.length = R) :
    (∀ c ∈ (randomize_column_names newNames t).cols, c.data.length = R) ∧
    (∀ c ∈ (reorder_columns order t).cols, c.data.length = R) ∧
    (∀ c ∈ (change_data_types pick t).cols, c.data.length = R) ∧
    (∀ c ∈ (pipelineTransform newNames order pick t).cols, c.data.length = R) := by
  have h1 : ∀ c ∈ (randomize_column_names newNames t).cols, c.data.length = R := by
    intro c hc
    obtain ⟨c0, hc0, he⟩ := rename_mem_data newNames t c hc
    rw [he]; exact hR c0 hc0
  have h2g : ∀ s : Table, (∀ c ∈ s.cols, c.data.length = R) →
      ∀ c ∈ (reorder_columns order s).cols, c.data.length = R :=
    fun s hs c hc => hs c (reorder_mem order s c hc)
  have h3g : ∀ s : Table, (∀ c ∈ s.cols, c.data.length = R) →
      ∀ c ∈ (change_data_types pick s).cols, c.data.length = R := by
    intro s hs c hc
    obtain ⟨c0, hc0, he⟩ := change_mem_len pick s c hc
    rw [he]; exact hs c0 hc0
  exact ⟨h1, h2g t hR, h3g t hR, h3g _ (h2g _ h1)⟩

/-- C7 witness: the example table has one row per column; so does the full
pipeline's output on it. -/
theorem row_count_invariance_witness :
    (∀ c ∈ exampleTable.cols, c.data.length = 1) ∧
    (∀ c ∈ (pipelineTransform ["column_1", "column_0"] ["column_1", "column_0"]
        zeroPick exampleTable).cols, c.data.length = 1) :=
  ⟨by decide, (row_count_invariance exampleTable 1 ["column_1", "column_0"]
    ["column_1", "column_0"] zeroPick (by decide)).2.2.2⟩

/-- C8 counterexample: the claim covers a supplied seed of 0, but Python's
`if seed:` treats the integer 0 as falsy, so with `--seed 0` no stage
reseeds the generator. -/
theorem seed_zero_does_not_reseed : seedGuard (some 0) = false := rfl

/-- C8 (amended): every supplied NON-ZERO integer seed passes the guard
each of the three stages runs before its shuffle or choice, so the shared
generator is reseeded; a supplied seed of 0 behaves like an absent seed
and triggers no reseeding. -/
theorem nonzero_seed_reseeds (s : Int) (h : s ≠ 0) :
    seedGuard (some s) = true ∧ seedGuard (some 0) = false ∧
    seedGuard none = false := by
  refine ⟨?_, rfl, rfl⟩
  simp [seedGuard, h]

/-- C8 witness: the documented seed 42 does reseed. -/
theorem nonzero_seed_reseeds_witness :
    (42 : Int) ≠ 0 ∧ seedGuard (some 42) = true :=
  ⟨by decide, (nonzero_seed_reseeds 42 (by decide)).1⟩

/-- C9: whatever the environment, the run exits with status 0; any failure
before the write step (missing input file, non-CSV extension, parse
failure) yields no output file together with an ERROR-level log entry;
and a failing write is likewise caught, logged at ERROR level, with no
output produced.  (A run that does write output may still have logged
per-column conversion errors at ERROR level; those are non-fatal.) -/
theorem fatal_errors_swallowed (e : Env) (newNames order : List String)
    (pick : Nat → Nat) :
    (main_run e newNames order pick).exitCode = 0 ∧
    (e.fileExists = false ∨ isCsvPath e.inputPath = false ∨ e.parseOk = false →
      (main_run e newNames order pick).output = none ∧
      (main_run e newNames order pick).errorLogged = true) ∧
    (e.writeOk = false →
      (main_run e newNames order pick).output = none ∧
      (main_run e newNames order pick).errorLogged = true) := by
  rcases e with ⟨fe, ip, po, ld, wo⟩
  cases fe <;> cases po <;> cases wo <;> by_cases hc : isCsvPath ip = true <;>
    simp [main_run, validate_input, hc]

/-- C9 witness: a nonexistent input path: exit status 0, no output, an
ERROR-level entry logged. -/
theorem fatal_errors_swallowed_witness :
    (main_run ⟨false, "input.csv", true, exampleTable, true⟩ [] [] zeroPick).exitCode = 0 ∧
    (main_run ⟨false, "input.csv", true, exampleTable, true⟩ [] [] zeroPick).output = none ∧
    (main_run ⟨false, "input.csv", true, exampleTable, true⟩ [] [] zeroPick).errorLogged = true :=
  ⟨(fatal_errors_swallowed ⟨false, "input.csv", true, exampleTable, true⟩ [] [] zeroPick).1,
   ((fatal_errors_swallowed ⟨false, "input.csv", true, exampleTable, true⟩ [] [] zeroPick).2.1
     (Or.inl rfl)).1,
   ((fatal_errors_swallowed ⟨false, "input.csv", true, exampleTable, true⟩ [] [] zeroPick).2.1
     (Or.inl rfl)).2⟩
